import Mathlib

set_option maxRecDepth 4000

/-!
Shallow embedding of the stm32mp-keygen signing tools.

Two source files are modelled:
  * stm32-sign.py         (namespace Sign)    — local PEM key variant
  * stm32-sign-pkcs11.py  (namespace Pkcs11)  — pkcs11 token variant

Bytes are modelled as natural numbers in a list; images are `List Nat`.
The trusted crypto primitives (SHA-256, ECDSA sign and verify, supplied by the
Cryptodome / pkcs11 libraries) are parameters of the pipelines, mirroring the
fact that the source only calls out to them.
-/

/-- Take `len` bytes starting at offset `off`: the Python slice image[off:off+len]. -/
def sliceB (l : List Nat) (off len : Nat) : List Nat := (l.drop off).take len

/-- Decode a 4-byte little-endian unsigned integer, as struct.unpack field I does. -/
def le32dec : List Nat → Nat
  | a :: b :: c :: d :: _ => a + 256 * (b + 256 * (c + 256 * d))
  | _ => 0

/-- Encode a 4-byte little-endian unsigned integer, as struct.pack field I does. -/
def le32enc (n : Nat) : List Nat :=
  [n % 256, n / 256 % 256, n / 65536 % 256, n / 16777216 % 256]

/-- struct.pack field ns: truncate to n bytes, pad on the right with zero bytes. -/
def packBytes (n : Nat) (l : List Nat) : List Nat :=
  l.take n ++ List.replicate (n - l.length) 0

/-- Little-endian byte expansion of a natural number into k bytes. -/
def leBytes : Nat → Nat → List Nat
  | 0, _ => []
  | k + 1, n => n % 256 :: leBytes k (n / 256)

/-- Big-endian k-byte expansion: Integer.to_bytes().rjust(k, zero byte). -/
def beBytes (k n : Nat) : List Nat := (leBytes k n).reverse

/-- The magic bytes b"STM2". -/
def STM2 : List Nat := [83, 84, 77, 50]

/-- Supported curve names for algorithm id 1 (identical lists in both files). -/
def p256_names : List String :=
  ["NIST P-256", "p256", "P-256", "prime256v1", "secp256r1"]

/-- Supported curve names for algorithm id 2 (empty in both files). -/
def brainpool_names : List String := []

/-- struct.pack with format 4s64s10I64s83xB followed by the rest of the image:
a 4-byte string, a 64-byte string, ten little-endian 32-bit words, a 64-byte
string, 83 zero pad bytes and one final byte, then the given tail.  The packed
prefix is exactly 256 bytes. -/
def packFmt (magic sig : List Nat) (i0 i1 i2 i3 i4 i5 i6 i7 i8 i9 : Nat)
    (pub : List Nat) (b : Nat) (tail : List Nat) : List Nat :=
  packBytes 4 magic ++ packBytes 64 sig ++
  le32enc i0 ++ le32enc i1 ++ le32enc i2 ++ le32enc i3 ++ le32enc i4 ++
  le32enc i5 ++ le32enc i6 ++ le32enc i7 ++ le32enc i8 ++ le32enc i9 ++
  packBytes 64 pub ++ List.replicate 83 0 ++ [b] ++ tail

/-- An ECC key as exposed by Cryptodome: a curve name and the public point. -/
structure ECCKey where
  curve : String
  pointQ_x : Nat
  pointQ_y : Nat
deriving DecidableEq, Repr

/-- Result of sign_image: ok is return 0, formatError is the magic-check return -1
(a too-short buffer, which makes struct.unpack raise, is also a format failure),
unsupportedCurve is the ValueError raised by key_algorithm. -/
inductive SignOutcome where
  | ok
  | formatError
  | unsupportedCurve
deriving DecidableEq, Repr

/-- Result of verify_signature: valid is return 0, keyMismatch is return 1,
invalid is return 2, formatError is the struct.unpack failure on a short buffer. -/
inductive VerifyOutcome where
  | valid
  | keyMismatch
  | invalid
  | formatError
deriving DecidableEq, Repr

namespace Sign

/-- The dictionary built by unpack_header in stm32-sign.py.  Note: the source
assigns the key hdr_version twice, first from fields[3] (offset 0x48) and then
from fields[9] (offset 0x60), so the dictionary only keeps the second value and
has no separate rollback entry. -/
structure Stm32Header where
  magic : List Nat
  signature : List Nat
  checksum : Nat
  hdr_version : Nat
  length : Nat
  entry_addr : Nat
  load_addr : Nat
  option_flags : Nat
  ecdsa_algo : Nat
  ecdsa_pubkey : List Nat
deriving DecidableEq, Repr

/-- get_raw_pubkey: X and Y coordinates, each big-endian padded to 32 bytes. -/
def get_raw_pubkey (key : ECCKey) : List Nat :=
  beBytes 32 key.pointQ_x ++ beBytes 32 key.pointQ_y

/-- unpack_header from stm32-sign.py.  struct.unpack of format 4s64s10I64s83xB
on image[0:256]; none models the struct.error raised when the buffer is short.
The hdr_version field is assigned twice in the source; the surviving value is
fields[9], the word at offset 0x60. -/
def unpack_header (image : List Nat) : Option Stm32Header :=
  if 256 ≤ image.length then
    some
      { magic := sliceB image 0 4
        signature := sliceB image 4 64
        checksum := le32dec (sliceB image 0x44 4)
        hdr_version := le32dec (sliceB image 0x60 4)
        length := le32dec (sliceB image 0x4C 4)
        entry_addr := le32dec (sliceB image 0x50 4)
        load_addr := le32dec (sliceB image 0x58 4)
        option_flags := le32dec (sliceB image 0x64 4)
        ecdsa_algo := le32dec (sliceB image 0x68 4)
        ecdsa_pubkey := sliceB image 0x6C 64 }
  else none

/-- repack_header from stm32-sign.py: image[0:256] = struct.pack(fmt, ...),
with hdr_version written at both word 3 (offset 0x48) and word 9 (offset 0x60),
zeros at words 6 and 8 and in the final byte. -/
def repack_header (image : List Nat) (s : Stm32Header) : List Nat :=
  packFmt s.magic s.signature
    s.checksum s.hdr_version s.length s.entry_addr 0 s.load_addr 0
    s.hdr_version s.option_flags s.ecdsa_algo
    s.ecdsa_pubkey 0 (image.drop 256)

/-- key_algorithm from stm32-sign.py; none models the raised ValueError. -/
def key_algorithm (key : ECCKey) : Option Nat :=
  if p256_names.contains key.curve then some 1
  else if brainpool_names.contains key.curve then some 2
  else none

/-- sign_image from stm32-sign.py.  hash models SHA256.new(...) and signFn the
DSS signer; the final self-verification call only logs and is omitted.  The
mutated bytearray is returned alongside the outcome. -/
def sign_image (hash : List Nat → List Nat) (signFn : ECCKey → List Nat → List Nat)
    (image : List Nat) (key : ECCKey) : SignOutcome × List Nat :=
  match unpack_header image with
  | none => (.formatError, image)
  | some stm32 =>
    if stm32.magic ≠ STM2 then (.formatError, image)
    else
      match key_algorithm key with
      | none => (.unsupportedCurve, image)
      | some algo =>
        let stm32b := { stm32 with
          ecdsa_pubkey := get_raw_pubkey key
          ecdsa_algo := algo
          option_flags := 0 }
        let image1 := repack_header image stm32b
        let sha := hash (image1.drop 0x48)
        let sig := signFn key sha
        (.ok, image1.take 0x04 ++ sig ++ image1.drop 0x44)

/-- Derived notion (not a source function): the header record as it stands
just before repack_header inside sign_image, for a P-256 key. -/
def signedHdr (image : List Nat) (key : ECCKey) : Stm32Header :=
  { magic := sliceB image 0 4
    signature := sliceB image 4 64
    checksum := le32dec (sliceB image 0x44 4)
    hdr_version := le32dec (sliceB image 0x60 4)
    length := le32dec (sliceB image 0x4C 4)
    entry_addr := le32dec (sliceB image 0x50 4)
    load_addr := le32dec (sliceB image 0x58 4)
    option_flags := 0
    ecdsa_algo := 1
    ecdsa_pubkey := get_raw_pubkey key }

/-- verify_signature from stm32-sign.py.  verifyFn models DSS verify of a
digest and signature under the given key. -/
def verify_signature (hash : List Nat → List Nat)
    (verifyFn : ECCKey → List Nat → List Nat → Bool)
    (image : List Nat) (key : ECCKey) : VerifyOutcome :=
  match unpack_header image with
  | none => .formatError
  | some hdr =>
    if get_raw_pubkey key ≠ hdr.ecdsa_pubkey then .keyMismatch
    else if verifyFn key (hash (image.drop 0x48)) hdr.signature then .valid
    else .invalid

end Sign

namespace Pkcs11

/-- The dictionary built by unpack_header in stm32-sign-pkcs11.py.  Unlike the
local variant, fields[3] (offset 0x48) is kept as hdr_version and fields[9]
(offset 0x60) as a separate rollback_version entry. -/
structure Stm32Header where
  magic : List Nat
  signature : List Nat
  checksum : Nat
  hdr_version : Nat
  length : Nat
  entry_addr : Nat
  load_addr : Nat
  rollback_version : Nat
  option_flags : Nat
  ecdsa_algo : Nat
  ecdsa_pubkey : List Nat
deriving DecidableEq, Repr

/-- get_raw_pubkey from stm32-sign-pkcs11.py: the token public key object is
imported as an ECC key (ECC.import_key of encode_ec_public_key) and its X and Y
coordinates emitted big-endian, each padded to 32 bytes. -/
def get_raw_pubkey (pkey : ECCKey) : List Nat :=
  beBytes 32 pkey.pointQ_x ++ beBytes 32 pkey.pointQ_y

/-- unpack_header from stm32-sign-pkcs11.py: same layout, but hdr_version and
rollback_version are kept as two distinct entries. -/
def unpack_header (image : List Nat) : Option Stm32Header :=
  if 256 ≤ image.length then
    some
      { magic := sliceB image 0 4
        signature := sliceB image 4 64
        checksum := le32dec (sliceB image 0x44 4)
        hdr_version := le32dec (sliceB image 0x48 4)
        length := le32dec (sliceB image 0x4C 4)
        entry_addr := le32dec (sliceB image 0x50 4)
        load_addr := le32dec (sliceB image 0x58 4)
        rollback_version := le32dec (sliceB image 0x60 4)
        option_flags := le32dec (sliceB image 0x64 4)
        ecdsa_algo := le32dec (sliceB image 0x68 4)
        ecdsa_pubkey := sliceB image 0x6C 64 }
  else none

/-- repack_header from stm32-sign-pkcs11.py: hdr_version at word 3 and
rollback_version at word 9, zeros at words 6 and 8 and in the final byte. -/
def repack_header (image : List Nat) (s : Stm32Header) : List Nat :=
  packFmt s.magic s.signature
    s.checksum s.hdr_version s.length s.entry_addr 0 s.load_addr 0
    s.rollback_version s.option_flags s.ecdsa_algo
    s.ecdsa_pubkey 0 (image.drop 256)

/-- key_algorithm from stm32-sign-pkcs11.py, applied to the imported ECC public
key; none models the raised ValueError. -/
def key_algorithm (pkey : ECCKey) : Option Nat :=
  if p256_names.contains pkey.curve then some 1
  else if brainpool_names.contains pkey.curve then some 2
  else none

/-- pkcs11_sign_image from stm32-sign-pkcs11.py.  The token session plumbing is
external I/O; pub is the public key fetched from the token by label (already
imported as an ECC key) and signFn the token private-key ECDSA operation on the
SHA-256 digest bytes. -/
def pkcs11_sign_image (hash : List Nat → List Nat) (pub : ECCKey)
    (signFn : List Nat → List Nat) (image : List Nat) : SignOutcome × List Nat :=
  match unpack_header image with
  | none => (.formatError, image)
  | some stm32 =>
    if stm32.magic ≠ STM2 then (.formatError, image)
    else
      match key_algorithm pub with
      | none => (.unsupportedCurve, image)
      | some algo =>
        let stm32b := { stm32 with
          ecdsa_pubkey := get_raw_pubkey pub
          ecdsa_algo := algo
          option_flags := 0 }
        let image1 := repack_header image stm32b
        let sha := hash (image1.drop 0x48)
        let sig := signFn sha
        (.ok, image1.take 0x04 ++ sig ++ image1.drop 0x44)

/-- Derived notion (not a source function): the header record as it stands
just before repack_header inside pkcs11_sign_image, for a P-256 token key. -/
def signedHdr (image : List Nat) (pub : ECCKey) : Stm32Header :=
  { magic := sliceB image 0 4
    signature := sliceB image 4 64
    checksum := le32dec (sliceB image 0x44 4)
    hdr_version := le32dec (sliceB image 0x48 4)
    length := le32dec (sliceB image 0x4C 4)
    entry_addr := le32dec (sliceB image 0x50 4)
    load_addr := le32dec (sliceB image 0x58 4)
    rollback_version := le32dec (sliceB image 0x60 4)
    option_flags := 0
    ecdsa_algo := 1
    ecdsa_pubkey := get_raw_pubkey pub }

/-- pkcs11_verify_signature from stm32-sign-pkcs11.py.  pub is the public key
fetched from the token by label; verifyFn models the DSS verifier built from
it.  The embedded header pubkey is read into the dictionary but never compared
against pub. -/
def pkcs11_verify_signature (hash : List Nat → List Nat)
    (verifyFn : ECCKey → List Nat → List Nat → Bool)
    (pub : ECCKey) (image : List Nat) : VerifyOutcome :=
  match unpack_header image with
  | none => .formatError
  | some hdr =>
    if verifyFn pub (hash (image.drop 0x48)) hdr.signature then .valid
    else .invalid

end Pkcs11

/-! ### Concrete fixtures used to instantiate the pipelines -/

/-- A P-256 key fixture (curve name as openssl emits it). -/
def testKey : ECCKey := ⟨"prime256v1", 3, 9⟩

/-- A key fixture on an unsupported curve. -/
def badCurveKey : ECCKey := ⟨"secp384r1", 3, 9⟩

/-- A 256-byte image: STM2 magic followed by zeros. -/
def img256 : List Nat := STM2 ++ List.replicate 252 0

/-- A 256-byte STM2 image whose word at 0x48 is 1 and whose word at 0x60 is 2. -/
def imgTwoVersions : List Nat :=
  STM2 ++ List.replicate 68 0 ++ [1, 0, 0, 0] ++ List.replicate 20 0 ++
    [2, 0, 0, 0] ++ List.replicate 156 0

/-- The image above with a four-byte payload appended. -/
def imgTwoVersionsPay : List Nat := imgTwoVersions ++ [9, 9, 9, 9]

/-- A stand-in hash primitive: constant 32-byte digest. -/
def hash32 : List Nat → List Nat := fun _ => List.replicate 32 0

/-- A fixed 64-byte signature value. -/
def sig64 : List Nat := List.replicate 64 7

/-- A stand-in local signer that always emits sig64. -/
def signConst : ECCKey → List Nat → List Nat := fun _ _ => sig64

/-- A stand-in verifier accepting exactly sig64. -/
def verifyConst : ECCKey → List Nat → List Nat → Bool := fun _ _ s => s == sig64

/-- A stand-in pkcs11 token signer that always emits sig64. -/
def signP64 : List Nat → List Nat := fun _ => sig64

/-- A stand-in verifier that accepts everything. -/
def verifyTrue : ECCKey → List Nat → List Nat → Bool := fun _ _ _ => true

/-- A concrete local-variant header record fixture. -/
def hdrL0 : Sign.Stm32Header :=
  ⟨STM2, List.replicate 64 5, 10, 11, 12, 13, 14, 15, 16, List.replicate 64 8⟩

/-- A concrete pkcs11-variant header record fixture. -/
def hdrP0 : Pkcs11.Stm32Header :=
  ⟨STM2, List.replicate 64 5, 10, 11, 12, 13, 14, 90, 15, 16, List.replicate 64 8⟩

/-! ### Basic length and byte lemmas -/

theorem packBytes_length (n : Nat) (l : List Nat) : (packBytes n l).length = n := by
  simp [packBytes]
  omega

theorem packBytes_eq_self {n : Nat} {l : List Nat} (h : l.length = n) :
    packBytes n l = l := by
  subst h
  simp [packBytes]

theorem le32enc_length (n : Nat) : (le32enc n).length = 4 := rfl

theorem leBytes_length (k n : Nat) : (leBytes k n).length = k := by
  induction k generalizing n with
  | zero => rfl
  | succ k ih => simp [leBytes, ih]

theorem beBytes_length (k n : Nat) : (beBytes k n).length = k := by
  simp [beBytes, leBytes_length]

theorem le32dec_le32enc {n : Nat} (h : n < 4294967296) : le32dec (le32enc n) = n := by
  simp only [le32enc, le32dec]
  omega

theorem le32enc_le32dec {a b c d : Nat} (ha : a < 256) (hb : b < 256) (hc : c < 256)
    (hd : d < 256) : le32enc (le32dec [a, b, c, d]) = [a, b, c, d] := by
  simp only [le32enc, le32dec, List.cons.injEq, and_true]
  refine ⟨?_, ?_, ?_, ?_⟩ <;> omega

theorem le32dec_lt (a b c d : Nat) (ha : a < 256) (hb : b < 256) (hc : c < 256)
    (hd : d < 256) : le32dec [a, b, c, d] < 4294967296 := by
  simp only [le32dec]
  omega

/-! ### Chunk extraction lemmas for appended byte strings -/

theorem drop_chunk {a : List Nat} (rest : List Nat) {n m k : Nat}
    (h : a.length = n) (hm : m = n + k) : (a ++ rest).drop m = rest.drop k := by
  subst hm
  subst h
  exact List.drop_append k

theorem dPack (m k w : Nat) (l rest : List Nat) (hm : m = w + k) :
    (packBytes w l ++ rest).drop m = rest.drop k :=
  drop_chunk rest (packBytes_length w l) hm

theorem dEnc (m k : Nat) (n : Nat) (rest : List Nat) (hm : m = 4 + k) :
    (le32enc n ++ rest).drop m = rest.drop k :=
  drop_chunk rest (le32enc_length n) hm

theorem dRep (m k : Nat) (rest : List Nat) (hm : m = 83 + k) :
    (List.replicate 83 (0 : Nat) ++ rest).drop m = rest.drop k :=
  drop_chunk rest (List.length_replicate 83 0) hm

theorem dOne (m k b : Nat) (rest : List Nat) (hm : m = 1 + k) :
    ([b] ++ rest).drop m = rest.drop k :=
  drop_chunk rest rfl hm

theorem tPack (w : Nat) (l rest : List Nat) :
    (packBytes w l ++ rest).take w = packBytes w l :=
  List.take_left' (packBytes_length w l)

theorem tEnc (n : Nat) (rest : List Nat) : (le32enc n ++ rest).take 4 = le32enc n :=
  List.take_left' (le32enc_length n)

theorem tRep (rest : List Nat) :
    (List.replicate 83 (0 : Nat) ++ rest).take 83 = List.replicate 83 0 :=
  List.take_left' (List.length_replicate 83 0)

theorem tOne (b : Nat) (rest : List Nat) : ([b] ++ rest).take 1 = [b] :=
  List.take_left' rfl

/-! ### Field extraction from a packed header -/

section PackFmtSlices

variable (magic sig : List Nat) (i0 i1 i2 i3 i4 i5 i6 i7 i8 i9 : Nat)
variable (pub : List Nat) (b : Nat) (tail : List Nat)

theorem pf_magic :
    sliceB (packFmt magic sig i0 i1 i2 i3 i4 i5 i6 i7 i8 i9 pub b tail) 0 4 =
      packBytes 4 magic := by
  simp only [sliceB, packFmt, List.append_assoc]
  rw [List.drop_zero, tPack]

theorem pf_sig :
    sliceB (packFmt magic sig i0 i1 i2 i3 i4 i5 i6 i7 i8 i9 pub b tail) 4 64 =
      packBytes 64 sig := by
  simp only [sliceB, packFmt, List.append_assoc]
  rw [dPack 4 0 4 _ _ (by norm_num), List.drop_zero, tPack]

theorem pf_i0 :
    sliceB (packFmt magic sig i0 i1 i2 i3 i4 i5 i6 i7 i8 i9 pub b tail) 68 4 =
      le32enc i0 := by
  simp only [sliceB, packFmt, List.append_assoc]
  rw [dPack 68 64 4 _ _ (by norm_num), dPack 64 0 64 _ _ (by norm_num),
    List.drop_zero, tEnc]

theorem pf_i1 :
    sliceB (packFmt magic sig i0 i1 i2 i3 i4 i5 i6 i7 i8 i9 pub b tail) 72 4 =
      le32enc i1 := by
  simp only [sliceB, packFmt, List.append_assoc]
  rw [dPack 72 68 4 _ _ (by norm_num), dPack 68 4 64 _ _ (by norm_num),
    dEnc 4 0 _ _ (by norm_num), List.drop_zero, tEnc]

theorem pf_i2 :
    sliceB (packFmt magic sig i0 i1 i2 i3 i4 i5 i6 i7 i8 i9 pub b tail) 76 4 =
      le32enc i2 := by
  simp only [sliceB, packFmt, List.append_assoc]
  rw [dPack 76 72 4 _ _ (by norm_num), dPack 72 8 64 _ _ (by norm_num),
    dEnc 8 4 _ _ (by norm_num), dEnc 4 0 _ _ (by norm_num), List.drop_zero, tEnc]

theorem pf_i3 :
    sliceB (packFmt magic sig i0 i1 i2 i3 i4 i5 i6 i7 i8 i9 pub b tail) 80 4 =
      le32enc i3 := by
  simp only [sliceB, packFmt, List.append_assoc]
  rw [dPack 80 76 4 _ _ (by norm_num), dPack 76 12 64 _ _ (by norm_num),
    dEnc 12 8 _ _ (by norm_num), dEnc 8 4 _ _ (by norm_num),
    dEnc 4 0 _ _ (by norm_num), List.drop_zero, tEnc]

theorem pf_i4 :
    sliceB (packFmt magic sig i0 i1 i2 i3 i4 i5 i6 i7 i8 i9 pub b tail) 84 4 =
      le32enc i4 := by
  simp only [sliceB, packFmt, List.append_assoc]
  rw [dPack 84 80 4 _ _ (by norm_num), dPack 80 16 64 _ _ (by norm_num),
    dEnc 16 12 _ _ (by norm_num), dEnc 12 8 _ _ (by norm_num),
    dEnc 8 4 _ _ (by norm_num), dEnc 4 0 _ _ (by norm_num), List.drop_zero, tEnc]

theorem pf_i5 :
    sliceB (packFmt magic sig i0 i1 i2 i3 i4 i5 i6 i7 i8 i9 pub b tail) 88 4 =
      le32enc i5 := by
  simp only [sliceB, packFmt, List.append_assoc]
  rw [dPack 88 84 4 _ _ (by norm_num), dPack 84 20 64 _ _ (by norm_num),
    dEnc 20 16 _ _ (by norm_num), dEnc 16 12 _ _ (by norm_num),
    dEnc 12 8 _ _ (by norm_num), dEnc 8 4 _ _ (by norm_num),
    dEnc 4 0 _ _ (by norm_num), List.drop_zero, tEnc]

theorem pf_i6 :
    sliceB (packFmt magic sig i0 i1 i2 i3 i4 i5 i6 i7 i8 i9 pub b tail) 92 4 =
      le32enc i6 := by
  simp only [sliceB, packFmt, List.append_assoc]
  rw [dPack 92 88 4 _ _ (by norm_num), dPack 88 24 64 _ _ (by norm_num),
    dEnc 24 20 _ _ (by norm_num), dEnc 20 16 _ _ (by norm_num),
    dEnc 16 12 _ _ (by norm_num), dEnc 12 8 _ _ (by norm_num),
    dEnc 8 4 _ _ (by norm_num), dEnc 4 0 _ _ (by norm_num), List.drop_zero, tEnc]

theorem pf_i7 :
    sliceB (packFmt magic sig i0 i1 i2 i3 i4 i5 i6 i7 i8 i9 pub b tail) 96 4 =
      le32enc i7 := by
  simp only [sliceB, packFmt, List.append_assoc]
  rw [dPack 96 92 4 _ _ (by norm_num), dPack 92 28 64 _ _ (by norm_num),
    dEnc 28 24 _ _ (by norm_num), dEnc 24 20 _ _ (by norm_num),
    dEnc 20 16 _ _ (by norm_num), dEnc 16 12 _ _ (by norm_num),
    dEnc 12 8 _ _ (by norm_num), dEnc 8 4 _ _ (by norm_num),
    dEnc 4 0 _ _ (by norm_num), List.drop_zero, tEnc]

theorem pf_i8 :
    sliceB (packFmt magic sig i0 i1 i2 i3 i4 i5 i6 i7 i8 i9 pub b tail) 100 4 =
      le32enc i8 := by
  simp only [sliceB, packFmt, List.append_assoc]
  rw [dPack 100 96 4 _ _ (by norm_num), dPack 96 32 64 _ _ (by norm_num),
    dEnc 32 28 _ _ (by norm_num), dEnc 28 24 _ _ (by norm_num),
    dEnc 24 20 _ _ (by norm_num), dEnc 20 16 _ _ (by norm_num),
    dEnc 16 12 _ _ (by norm_num), dEnc 12 8 _ _ (by norm_num),
    dEnc 8 4 _ _ (by norm_num), dEnc 4 0 _ _ (by norm_num), List.drop_zero, tEnc]

theorem pf_i9 :
    sliceB (packFmt magic sig i0 i1 i2 i3 i4 i5 i6 i7 i8 i9 pub b tail) 104 4 =
      le32enc i9 := by
  simp only [sliceB, packFmt, List.append_assoc]
  rw [dPack 104 100 4 _ _ (by norm_num), dPack 100 36 64 _ _ (by norm_num),
    dEnc 36 32 _ _ (by norm_num), dEnc 32 28 _ _ (by norm_num),
    dEnc 28 24 _ _ (by norm_num), dEnc 24 20 _ _ (by norm_num),
    dEnc 20 16 _ _ (by norm_num), dEnc 16 12 _ _ (by norm_num),
    dEnc 12 8 _ _ (by norm_num), dEnc 8 4 _ _ (by norm_num),
    dEnc 4 0 _ _ (by norm_num), List.drop_zero, tEnc]

theorem pf_pub :
    sliceB (packFmt magic sig i0 i1 i2 i3 i4 i5 i6 i7 i8 i9 pub b tail) 108 64 =
      packBytes 64 pub := by
  simp only [sliceB, packFmt, List.append_assoc]
  rw [dPack 108 104 4 _ _ (by norm_num), dPack 104 40 64 _ _ (by norm_num),
    dEnc 40 36 _ _ (by norm_num), dEnc 36 32 _ _ (by norm_num),
    dEnc 32 28 _ _ (by norm_num), dEnc 28 24 _ _ (by norm_num),
    dEnc 24 20 _ _ (by norm_num), dEnc 20 16 _ _ (by norm_num),
    dEnc 16 12 _ _ (by norm_num), dEnc 12 8 _ _ (by norm_num),
    dEnc 8 4 _ _ (by norm_num), dEnc 4 0 _ _ (by norm_num), List.drop_zero, tPack]

theorem pf_pad :
    sliceB (packFmt magic sig i0 i1 i2 i3 i4 i5 i6 i7 i8 i9 pub b tail) 172 83 =
      List.replicate 83 0 := by
  simp only [sliceB, packFmt, List.append_assoc]
  rw [dPack 172 168 4 _ _ (by norm_num), dPack 168 104 64 _ _ (by norm_num),
    dEnc 104 100 _ _ (by norm_num), dEnc 100 96 _ _ (by norm_num),
    dEnc 96 92 _ _ (by norm_num), dEnc 92 88 _ _ (by norm_num),
    dEnc 88 84 _ _ (by norm_num), dEnc 84 80 _ _ (by norm_num),
    dEnc 80 76 _ _ (by norm_num), dEnc 76 72 _ _ (by norm_num),
    dEnc 72 68 _ _ (by norm_num), dEnc 68 64 _ _ (by norm_num),
    dPack 64 0 64 _ _ (by norm_num), List.drop_zero, tRep]

theorem pf_b :
    sliceB (packFmt magic sig i0 i1 i2 i3 i4 i5 i6 i7 i8 i9 pub b tail) 255 1 =
      [b] := by
  simp only [sliceB, packFmt, List.append_assoc]
  rw [dPack 255 251 4 _ _ (by norm_num), dPack 251 187 64 _ _ (by norm_num),
    dEnc 187 183 _ _ (by norm_num), dEnc 183 179 _ _ (by norm_num),
    dEnc 179 175 _ _ (by norm_num), dEnc 175 171 _ _ (by norm_num),
    dEnc 171 167 _ _ (by norm_num), dEnc 167 163 _ _ (by norm_num),
    dEnc 163 159 _ _ (by norm_num), dEnc 159 155 _ _ (by norm_num),
    dEnc 155 151 _ _ (by norm_num), dEnc 151 147 _ _ (by norm_num),
    dPack 147 83 64 _ _ (by norm_num), dRep 83 0 _ (by norm_num),
    List.drop_zero, tOne]

theorem pf_tail :
    (packFmt magic sig i0 i1 i2 i3 i4 i5 i6 i7 i8 i9 pub b tail).drop 256 =
      tail := by
  simp only [packFmt, List.append_assoc]
  rw [dPack 256 252 4 _ _ (by norm_num), dPack 252 188 64 _ _ (by norm_num),
    dEnc 188 184 _ _ (by norm_num), dEnc 184 180 _ _ (by norm_num),
    dEnc 180 176 _ _ (by norm_num), dEnc 176 172 _ _ (by norm_num),
    dEnc 172 168 _ _ (by norm_num), dEnc 168 164 _ _ (by norm_num),
    dEnc 164 160 _ _ (by norm_num), dEnc 160 156 _ _ (by norm_num),
    dEnc 156 152 _ _ (by norm_num), dEnc 152 148 _ _ (by norm_num),
    dPack 148 84 64 _ _ (by norm_num), dRep 84 1 _ (by norm_num),
    dOne 1 0 b _ (by norm_num), List.drop_zero]

theorem packFmt_length :
    (packFmt magic sig i0 i1 i2 i3 i4 i5 i6 i7 i8 i9 pub b tail).length =
      256 + tail.length := by
  simp [packFmt, packBytes_length, le32enc_length, List.length_append,
    List.length_replicate]
  omega

end PackFmtSlices

/-! ### Canonical forms of the pipelines under their guards -/

theorem sign_get_raw_pubkey_length (key : ECCKey) :
    (Sign.get_raw_pubkey key).length = 64 := by
  simp [Sign.get_raw_pubkey, beBytes_length]

theorem p11_get_raw_pubkey_length (pkey : ECCKey) :
    (Pkcs11.get_raw_pubkey pkey).length = 64 := by
  simp [Pkcs11.get_raw_pubkey, beBytes_length]

theorem sign_unpack_eq (image : List Nat) (hlen : 256 ≤ image.length) :
    Sign.unpack_header image =
      some
        { magic := sliceB image 0 4
          signature := sliceB image 4 64
          checksum := le32dec (sliceB image 0x44 4)
          hdr_version := le32dec (sliceB image 0x60 4)
          length := le32dec (sliceB image 0x4C 4)
          entry_addr := le32dec (sliceB image 0x50 4)
          load_addr := le32dec (sliceB image 0x58 4)
          option_flags := le32dec (sliceB image 0x64 4)
          ecdsa_algo := le32dec (sliceB image 0x68 4)
          ecdsa_pubkey := sliceB image 0x6C 64 } := by
  simp only [Sign.unpack_header]
  rw [if_pos hlen]

theorem p11_unpack_eq (image : List Nat) (hlen : 256 ≤ image.length) :
    Pkcs11.unpack_header image =
      some
        { magic := sliceB image 0 4
          signature := sliceB image 4 64
          checksum := le32dec (sliceB image 0x44 4)
          hdr_version := le32dec (sliceB image 0x48 4)
          length := le32dec (sliceB image 0x4C 4)
          entry_addr := le32dec (sliceB image 0x50 4)
          load_addr := le32dec (sliceB image 0x58 4)
          rollback_version := le32dec (sliceB image 0x60 4)
          option_flags := le32dec (sliceB image 0x64 4)
          ecdsa_algo := le32dec (sliceB image 0x68 4)
          ecdsa_pubkey := sliceB image 0x6C 64 } := by
  simp only [Pkcs11.unpack_header]
  rw [if_pos hlen]

theorem sign_key_algorithm_p256 {key : ECCKey}
    (h : p256_names.contains key.curve = true) : Sign.key_algorithm key = some 1 := by
  simp only [Sign.key_algorithm]
  rw [if_pos h]

theorem p11_key_algorithm_p256 {pkey : ECCKey}
    (h : p256_names.contains pkey.curve = true) :
    Pkcs11.key_algorithm pkey = some 1 := by
  simp only [Pkcs11.key_algorithm]
  rw [if_pos h]

theorem sign_repack_length (image : List Nat) (s : Sign.Stm32Header)
    (hlen : 256 ≤ image.length) :
    (Sign.repack_header image s).length = image.length := by
  rw [Sign.repack_header, packFmt_length, List.length_drop]
  omega

theorem p11_repack_length (image : List Nat) (s : Pkcs11.Stm32Header)
    (hlen : 256 ≤ image.length) :
    (Pkcs11.repack_header image s).length = image.length := by
  rw [Pkcs11.repack_header, packFmt_length, List.length_drop]
  omega

/-- Round trip for the local codec: every field of the record written by
repack_header is recovered by unpack_header (the word at offset 0x48 and the
word at offset 0x60 both carry hdr_version, and unpack takes the one at 0x60). -/
theorem sign_unpack_repack (image : List Nat) (s : Sign.Stm32Header)
    (hm : s.magic.length = 4) (hs : s.signature.length = 64)
    (hp : s.ecdsa_pubkey.length = 64)
    (h0 : s.checksum < 4294967296) (h1 : s.hdr_version < 4294967296)
    (h2 : s.length < 4294967296) (h3 : s.entry_addr < 4294967296)
    (h4 : s.load_addr < 4294967296) (h5 : s.option_flags < 4294967296)
    (h6 : s.ecdsa_algo < 4294967296) :
    Sign.unpack_header (Sign.repack_header image s) = some s := by
  have hlen2 : 256 ≤ (Sign.repack_header image s).length := by
    rw [Sign.repack_header, packFmt_length]
    omega
  rw [sign_unpack_eq _ hlen2]
  obtain ⟨mg, sg, ck, hv, ln, ea, la, fl, al, pk⟩ := s
  simp only [Sign.repack_header] at *
  simp only [Option.some.injEq, Sign.Stm32Header.mk.injEq]
  refine ⟨?_, ?_, ?_, ?_, ?_, ?_, ?_, ?_, ?_, ?_⟩
  · rw [pf_magic]; exact packBytes_eq_self hm
  · rw [pf_sig]; exact packBytes_eq_self hs
  · rw [pf_i0]; exact le32dec_le32enc h0
  · rw [pf_i7]; exact le32dec_le32enc h1
  · rw [pf_i2]; exact le32dec_le32enc h2
  · rw [pf_i3]; exact le32dec_le32enc h3
  · rw [pf_i5]; exact le32dec_le32enc h4
  · rw [pf_i8]; exact le32dec_le32enc h5
  · rw [pf_i9]; exact le32dec_le32enc h6
  · rw [pf_pub]; exact packBytes_eq_self hp

/-- Round trip for the pkcs11 codec: hdr_version at word 3 and rollback_version
at word 9 are recovered separately. -/
theorem p11_unpack_repack (image : List Nat) (s : Pkcs11.Stm32Header)
    (hm : s.magic.length = 4) (hs : s.signature.length = 64)
    (hp : s.ecdsa_pubkey.length = 64)
    (h0 : s.checksum < 4294967296) (h1 : s.hdr_version < 4294967296)
    (h2 : s.length < 4294967296) (h3 : s.entry_addr < 4294967296)
    (h4 : s.load_addr < 4294967296) (h5 : s.rollback_version < 4294967296)
    (h6 : s.option_flags < 4294967296) (h7 : s.ecdsa_algo < 4294967296) :
    Pkcs11.unpack_header (Pkcs11.repack_header image s) = some s := by
  have hlen2 : 256 ≤ (Pkcs11.repack_header image s).length := by
    rw [Pkcs11.repack_header, packFmt_length]
    omega
  rw [p11_unpack_eq _ hlen2]
  obtain ⟨mg, sg, ck, hv, ln, ea, la, rb, fl, al, pk⟩ := s
  simp only [Pkcs11.repack_header] at *
  simp only [Option.some.injEq, Pkcs11.Stm32Header.mk.injEq]
  refine ⟨?_, ?_, ?_, ?_, ?_, ?_, ?_, ?_, ?_, ?_, ?_⟩
  · rw [pf_magic]; exact packBytes_eq_self hm
  · rw [pf_sig]; exact packBytes_eq_self hs
  · rw [pf_i0]; exact le32dec_le32enc h0
  · rw [pf_i1]; exact le32dec_le32enc h1
  · rw [pf_i2]; exact le32dec_le32enc h2
  · rw [pf_i3]; exact le32dec_le32enc h3
  · rw [pf_i5]; exact le32dec_le32enc h4
  · rw [pf_i7]; exact le32dec_le32enc h5
  · rw [pf_i8]; exact le32dec_le32enc h6
  · rw [pf_i9]; exact le32dec_le32enc h7
  · rw [pf_pub]; exact packBytes_eq_self hp

/-- Under the guards of sign_image (long enough, good magic, P-256 key) the
result is ok and the output buffer is the repacked header with the raw
signature over the digest of bytes 72 and onward spliced into bytes 4..68. -/
theorem sign_image_ok (hash : List Nat → List Nat)
    (signFn : ECCKey → List Nat → List Nat) (image : List Nat) (key : ECCKey)
    (hlen : 256 ≤ image.length) (hmagic : sliceB image 0 4 = STM2)
    (hcurve : p256_names.contains key.curve = true) :
    Sign.sign_image hash signFn image key =
      (.ok,
        (Sign.repack_header image (Sign.signedHdr image key)).take 4 ++
          signFn key (hash ((Sign.repack_header image (Sign.signedHdr image key)).drop 72)) ++
          (Sign.repack_header image (Sign.signedHdr image key)).drop 68) := by
  unfold Sign.sign_image
  rw [sign_unpack_eq image hlen, sign_key_algorithm_p256 hcurve]
  simp only [Sign.signedHdr, hmagic, ne_eq, not_true_eq_false, if_false]

/-- The analogous canonical form for pkcs11_sign_image. -/
theorem p11_sign_image_ok (hash : List Nat → List Nat) (pub : ECCKey)
    (signFn : List Nat → List Nat) (image : List Nat)
    (hlen : 256 ≤ image.length) (hmagic : sliceB image 0 4 = STM2)
    (hcurve : p256_names.contains pub.curve = true) :
    Pkcs11.pkcs11_sign_image hash pub signFn image =
      (.ok,
        (Pkcs11.repack_header image (Pkcs11.signedHdr image pub)).take 4 ++
          signFn (hash ((Pkcs11.repack_header image (Pkcs11.signedHdr image pub)).drop 72)) ++
          (Pkcs11.repack_header image (Pkcs11.signedHdr image pub)).drop 68) := by
  unfold Pkcs11.pkcs11_sign_image
  rw [p11_unpack_eq image hlen, p11_key_algorithm_p256 hcurve]
  simp only [Pkcs11.signedHdr, hmagic, ne_eq, not_true_eq_false, if_false]

/-- Dropping at or past the spliced signature region sees the underlying list. -/
theorem splice64_drop {a b : List Nat} (l : List Nat) (ha : a.length = 4)
    (hb : b.length = 64) {k : Nat} (hk : 68 ≤ k) :
    (a ++ (b ++ l.drop 68)).drop k = l.drop k := by
  rw [drop_chunk (b ++ l.drop 68) ha (show k = 4 + (k - 4) by omega)]
  rw [drop_chunk (l.drop 68) hb (show k - 4 = 64 + (k - 68) by omega)]
  rw [List.drop_drop]
  rw [show 68 + (k - 68) = k by omega]

/-- The spliced signature is read back by the slice at offset 4. -/
theorem splice64_sig {a b : List Nat} (l : List Nat) (ha : a.length = 4)
    (hb : b.length = 64) : sliceB (a ++ (b ++ l)) 4 64 = b := by
  simp only [sliceB]
  rw [drop_chunk (b ++ l) ha (show 4 = 4 + 0 by omega), List.drop_zero,
    List.take_left' hb]

/-- The first four bytes of the splice are the leading chunk. -/
theorem splice64_magic {a : List Nat} (b l : List Nat) (ha : a.length = 4) :
    sliceB (a ++ (b ++ l)) 0 4 = a := by
  simp only [sliceB]
  rw [List.drop_zero, List.take_left' ha]

/-- Slices of a dropped list are slices of the list at the shifted offset. -/
theorem sliceB_drop (l : List Nat) (a b c : Nat) :
    sliceB (l.drop a) b c = sliceB l (a + b) c := by
  simp only [sliceB, List.drop_drop]

/-- Canonical form of local verify on a decodable image: key comparison against
the embedded pubkey bytes, then the DSS check over the digest of bytes 72.. -/
theorem sign_verify_char (hash : List Nat → List Nat)
    (verifyFn : ECCKey → List Nat → List Nat → Bool)
    (image : List Nat) (key : ECCKey) (hlen : 256 ≤ image.length) :
    Sign.verify_signature hash verifyFn image key =
      if Sign.get_raw_pubkey key = sliceB image 108 64 then
        if verifyFn key (hash (image.drop 72)) (sliceB image 4 64) then .valid
        else .invalid
      else .keyMismatch := by
  unfold Sign.verify_signature
  rw [sign_unpack_eq _ hlen]
  by_cases h : Sign.get_raw_pubkey key = sliceB image 108 64
  · simp only [h, ne_eq, not_true_eq_false, if_false, if_true]
  · simp only [h, ne_eq, not_false_eq_true, if_true, if_false]

/-- Canonical form of pkcs11 verify on a decodable image: only the DSS check
against the token key; the embedded pubkey plays no role. -/
theorem p11_verify_char (hash : List Nat → List Nat)
    (verifyFn : ECCKey → List Nat → List Nat → Bool)
    (pub : ECCKey) (image : List Nat) (hlen : 256 ≤ image.length) :
    Pkcs11.pkcs11_verify_signature hash verifyFn pub image =
      if verifyFn pub (hash (image.drop 72)) (sliceB image 4 64) then .valid
      else .invalid := by
  unfold Pkcs11.pkcs11_verify_signature
  rw [p11_unpack_eq _ hlen]

/-! ### Claims -/

/-- C1: for every image whose first 4 bytes are STM2 and every P-256 key,
signing the image and then running local-key verification on the result with
the same key returns Valid (return value 0), for any payload length, provided
the external DSS primitives meet their contract: 64-byte raw signatures that
verify against the digest they were produced from. -/
theorem C1_sign_then_verify (hash : List Nat → List Nat)
    (signFn : ECCKey → List Nat → List Nat)
    (verifyFn : ECCKey → List Nat → List Nat → Bool)
    (image : List Nat) (key : ECCKey)
    (hlen : 256 ≤ image.length) (hmagic : sliceB image 0 4 = STM2)
    (hcurve : p256_names.contains key.curve = true)
    (hsig64 : ∀ d, (signFn key d).length = 64)
    (hdss : ∀ d, verifyFn key d (signFn key d) = true) :
    Sign.verify_signature hash verifyFn
      (Sign.sign_image hash signFn image key).2 key = .valid := by
  rw [sign_image_ok hash signFn image key hlen hmagic hcurve]
  have hRlen : (Sign.repack_header image (Sign.signedHdr image key)).length =
      image.length := sign_repack_length image _ hlen
  set R := Sign.repack_header image (Sign.signedHdr image key) with hR
  set sg := signFn key (hash (R.drop 72)) with hsg
  have htl : (R.take 4).length = 4 := by
    rw [List.length_take]
    omega
  have hsgl : sg.length = 64 := hsig64 _
  show Sign.verify_signature hash verifyFn (R.take 4 ++ sg ++ R.drop 68) key = .valid
  rw [List.append_assoc]
  have holen : 256 ≤ (R.take 4 ++ (sg ++ R.drop 68)).length := by
    simp only [List.length_append, List.length_drop, htl, hsgl]
    omega
  have hpub : sliceB (R.take 4 ++ (sg ++ R.drop 68)) 108 64 =
      Sign.get_raw_pubkey key := by
    simp only [sliceB]
    rw [splice64_drop R htl hsgl (by norm_num)]
    show sliceB R 108 64 = _
    rw [hR]
    simp only [Sign.repack_header]
    rw [pf_pub]
    simp only [Sign.signedHdr]
    exact packBytes_eq_self (sign_get_raw_pubkey_length key)
  have hsig : sliceB (R.take 4 ++ (sg ++ R.drop 68)) 4 64 = sg :=
    splice64_sig (R.drop 68) htl hsgl
  have hdig : (R.take 4 ++ (sg ++ R.drop 68)).drop 72 = R.drop 72 :=
    splice64_drop R htl hsgl (by norm_num)
  unfold Sign.verify_signature
  rw [sign_unpack_eq _ holen]
  rw [hpub, hsig, hdig]
  simp only [ne_eq, not_true_eq_false, if_false]
  rw [hsg, hdss]
  rfl

/-- Witness for C1 at a concrete 256-byte image and P-256 key fixture. -/
theorem C1_witness :
    Sign.verify_signature hash32 verifyConst
      (Sign.sign_image hash32 signConst img256 testKey).2 testKey = .valid :=
  C1_sign_then_verify hash32 signConst verifyConst img256 testKey
    (by decide) (by decide) (by decide) (fun _ => rfl) (fun _ => rfl)

/-- C2: on a 256-byte STM2 image whose little-endian word at offset 0x48 is 1
and whose word at offset 0x60 is 2, the pkcs11 codec decodes hdr_version = 1
and rollback_version = 2 as two distinct fields, as the claim states; the
local codec instead reports hdr_version = 2 (the word at 0x60, because the
dictionary key is assigned twice) and has no second field, contradicting the
claim for the local codec. -/
theorem C2_version_fields :
    (Sign.unpack_header imgTwoVersions).map (fun h => h.hdr_version) = some 2 ∧
    (Pkcs11.unpack_header imgTwoVersions).map (fun h => h.hdr_version) = some 1 ∧
    (Pkcs11.unpack_header imgTwoVersions).map (fun h => h.rollback_version) =
      some 2 := by
  refine ⟨?_, ?_, ?_⟩ <;> decide

/-- C3: decoding an encoded header record returns the record, in both codecs;
the records carry no reserved fields (the source dictionaries drop them), so
the reserved-zero hypothesis of the claim is vacuous, and the fields must be
representable (byte strings of the fixed widths, words below 2^32). -/
theorem C3_decode_encode (imageL imageP : List Nat)
    (s : Sign.Stm32Header) (t : Pkcs11.Stm32Header)
    (hm : s.magic.length = 4) (hs : s.signature.length = 64)
    (hp : s.ecdsa_pubkey.length = 64)
    (h0 : s.checksum < 4294967296) (h1 : s.hdr_version < 4294967296)
    (h2 : s.length < 4294967296) (h3 : s.entry_addr < 4294967296)
    (h4 : s.load_addr < 4294967296) (h5 : s.option_flags < 4294967296)
    (h6 : s.ecdsa_algo < 4294967296)
    (km : t.magic.length = 4) (ks : t.signature.length = 64)
    (kp : t.ecdsa_pubkey.length = 64)
    (k0 : t.checksum < 4294967296) (k1 : t.hdr_version < 4294967296)
    (k2 : t.length < 4294967296) (k3 : t.entry_addr < 4294967296)
    (k4 : t.load_addr < 4294967296) (k5 : t.rollback_version < 4294967296)
    (k6 : t.option_flags < 4294967296) (k7 : t.ecdsa_algo < 4294967296) :
    Sign.unpack_header (Sign.repack_header imageL s) = some s ∧
    Pkcs11.unpack_header (Pkcs11.repack_header imageP t) = some t :=
  ⟨sign_unpack_repack imageL s hm hs hp h0 h1 h2 h3 h4 h5 h6,
    p11_unpack_repack imageP t km ks kp k0 k1 k2 k3 k4 k5 k6 k7⟩

/-- Witness for C3 at concrete header records and the empty buffer. -/
theorem C3_witness :
    Sign.unpack_header (Sign.repack_header [] hdrL0) = some hdrL0 ∧
    Pkcs11.unpack_header (Pkcs11.repack_header [] hdrP0) = some hdrP0 :=
  C3_decode_encode [] [] hdrL0 hdrP0
    (by decide) (by decide) (by decide) (by decide) (by decide) (by decide)
    (by decide) (by decide) (by decide) (by decide) (by decide) (by decide)
    (by decide) (by decide) (by decide) (by decide) (by decide) (by decide)
    (by decide) (by decide) (by decide)

/-- C4: both sign pipelines place into bytes 4..68 the raw signature of the
digest of exactly bytes 0x48 (72) to the end of the final image, so the
freshly written option_flags (at 0x64), ecdsa_algo (at 0x68) and ecdsa_pubkey
(at 0x6C) lie inside the hashed range (at offsets 28, 32 and 36 of it) and the
signature bytes lie outside it; and local verify returns Valid exactly when
the embedded pubkey matches and the DSS check of the digest of bytes 72..end
passes. -/
theorem C4_digest_scope (hash : List Nat → List Nat)
    (signFn : ECCKey → List Nat → List Nat) (signP : List Nat → List Nat)
    (verifyFn : ECCKey → List Nat → List Nat → Bool)
    (image : List Nat) (key pub : ECCKey)
    (hlen : 256 ≤ image.length) (hmagic : sliceB image 0 4 = STM2)
    (hcurve : p256_names.contains key.curve = true)
    (hcurveP : p256_names.contains pub.curve = true)
    (hsig64 : ∀ d, (signFn key d).length = 64)
    (hsigP64 : ∀ d, (signP d).length = 64) :
    (sliceB (Sign.sign_image hash signFn image key).2 4 64 =
        signFn key (hash ((Sign.sign_image hash signFn image key).2.drop 72)) ∧
      sliceB ((Sign.sign_image hash signFn image key).2.drop 72) 36 64 =
        Sign.get_raw_pubkey key ∧
      sliceB ((Sign.sign_image hash signFn image key).2.drop 72) 32 4 =
        le32enc 1 ∧
      sliceB ((Sign.sign_image hash signFn image key).2.drop 72) 28 4 =
        le32enc 0) ∧
    (sliceB (Pkcs11.pkcs11_sign_image hash pub signP image).2 4 64 =
        signP (hash ((Pkcs11.pkcs11_sign_image hash pub signP image).2.drop 72))) ∧
    (∀ img2 : List Nat, 256 ≤ img2.length →
      (Sign.verify_signature hash verifyFn img2 key = .valid ↔
        Sign.get_raw_pubkey key = sliceB img2 108 64 ∧
        verifyFn key (hash (img2.drop 72)) (sliceB img2 4 64) = true)) := by
  have hRlen := sign_repack_length image (Sign.signedHdr image key) hlen
  set R := Sign.repack_header image (Sign.signedHdr image key) with hR
  have htl : (R.take 4).length = 4 := by
    rw [List.length_take]
    omega
  set sg := signFn key (hash (R.drop 72)) with hsg
  have hsgl : sg.length = 64 := hsig64 _
  have houtL : (Sign.sign_image hash signFn image key).2 =
      R.take 4 ++ (sg ++ R.drop 68) := by
    rw [sign_image_ok hash signFn image key hlen hmagic hcurve,
      List.append_assoc]
  have hdig : ((Sign.sign_image hash signFn image key).2).drop 72 = R.drop 72 := by
    rw [houtL]
    exact splice64_drop R htl hsgl (by norm_num)
  have hQlen := p11_repack_length image (Pkcs11.signedHdr image pub) hlen
  set Q := Pkcs11.repack_header image (Pkcs11.signedHdr image pub) with hQ
  have htlQ : (Q.take 4).length = 4 := by
    rw [List.length_take]
    omega
  set sp := signP (hash (Q.drop 72)) with hsp
  have hspl : sp.length = 64 := hsigP64 _
  have houtP : (Pkcs11.pkcs11_sign_image hash pub signP image).2 =
      Q.take 4 ++ (sp ++ Q.drop 68) := by
    rw [p11_sign_image_ok hash pub signP image hlen hmagic hcurveP,
      List.append_assoc]
  have hdigP : ((Pkcs11.pkcs11_sign_image hash pub signP image).2).drop 72 =
      Q.drop 72 := by
    rw [houtP]
    exact splice64_drop Q htlQ hspl (by norm_num)
  refine ⟨⟨?_, ?_, ?_, ?_⟩, ?_, ?_⟩
  · rw [hdig, houtL, ← hsg]
    exact splice64_sig (R.drop 68) htl hsgl
  · rw [hdig, sliceB_drop]
    show sliceB R 108 64 = _
    rw [hR]
    simp only [Sign.repack_header]
    rw [pf_pub]
    simp only [Sign.signedHdr]
    exact packBytes_eq_self (sign_get_raw_pubkey_length key)
  · rw [hdig, sliceB_drop]
    show sliceB R 104 4 = _
    rw [hR]
    simp only [Sign.repack_header]
    rw [pf_i9]
    simp only [Sign.signedHdr]
  · rw [hdig, sliceB_drop]
    show sliceB R 100 4 = _
    rw [hR]
    simp only [Sign.repack_header]
    rw [pf_i8]
    simp only [Sign.signedHdr]
  · rw [hdigP, houtP, ← hsp]
    exact splice64_sig (Q.drop 68) htlQ hspl
  · intro img2 h2
    rw [sign_verify_char hash verifyFn img2 key h2]
    by_cases h1 : Sign.get_raw_pubkey key = sliceB img2 108 64
    · by_cases hv : verifyFn key (hash (img2.drop 72)) (sliceB img2 4 64) = true
      · simp [h1, hv]
      · simp [h1, hv]
    · simp [h1]

/-- Witness for C4 at concrete fixtures (token key reused as local key). -/
theorem C4_witness :
    (sliceB (Sign.sign_image hash32 signConst img256 testKey).2 4 64 =
        signConst testKey
          (hash32 ((Sign.sign_image hash32 signConst img256 testKey).2.drop 72)) ∧
      sliceB ((Sign.sign_image hash32 signConst img256 testKey).2.drop 72) 36 64 =
        Sign.get_raw_pubkey testKey ∧
      sliceB ((Sign.sign_image hash32 signConst img256 testKey).2.drop 72) 32 4 =
        le32enc 1 ∧
      sliceB ((Sign.sign_image hash32 signConst img256 testKey).2.drop 72) 28 4 =
        le32enc 0) ∧
    (sliceB (Pkcs11.pkcs11_sign_image hash32 testKey signP64 img256).2 4 64 =
        signP64
          (hash32 ((Pkcs11.pkcs11_sign_image hash32 testKey signP64 img256).2.drop 72))) ∧
    (∀ img2 : List Nat, 256 ≤ img2.length →
      (Sign.verify_signature hash32 verifyConst img2 testKey = .valid ↔
        Sign.get_raw_pubkey testKey = sliceB img2 108 64 ∧
        verifyConst testKey (hash32 (img2.drop 72)) (sliceB img2 4 64) = true)) :=
  C4_digest_scope hash32 signConst signP64 verifyConst img256 testKey testKey
    (by decide) (by decide) (by decide) (by decide) (fun _ => rfl) (fun _ => rfl)

/-- unpack_header fails on a buffer shorter than 256 bytes (local variant). -/
theorem sign_unpack_none (image : List Nat) (h : ¬ 256 ≤ image.length) :
    Sign.unpack_header image = none := by
  simp only [Sign.unpack_header]
  rw [if_neg h]

/-- unpack_header fails on a buffer shorter than 256 bytes (pkcs11 variant). -/
theorem p11_unpack_none (image : List Nat) (h : ¬ 256 ≤ image.length) :
    Pkcs11.unpack_header image = none := by
  simp only [Pkcs11.unpack_header]
  rw [if_neg h]

/-- C5: if the first four bytes of the image are not STM2, both sign pipelines
return the format failure and hand back the buffer byte-for-byte unchanged
(a buffer too short to decode also fails the same way, unmodified). -/
theorem C5_bad_magic (hash : List Nat → List Nat)
    (signFn : ECCKey → List Nat → List Nat) (signP : List Nat → List Nat)
    (image : List Nat) (key pub : ECCKey)
    (hmagic : sliceB image 0 4 ≠ STM2) :
    Sign.sign_image hash signFn image key = (.formatError, image) ∧
    Pkcs11.pkcs11_sign_image hash pub signP image = (.formatError, image) := by
  constructor
  · unfold Sign.sign_image
    by_cases hlen : 256 ≤ image.length
    · rw [sign_unpack_eq _ hlen]
      simp only [ne_eq, hmagic, not_false_eq_true, if_true]
    · rw [sign_unpack_none _ hlen]
  · unfold Pkcs11.pkcs11_sign_image
    by_cases hlen : 256 ≤ image.length
    · rw [p11_unpack_eq _ hlen]
      simp only [ne_eq, hmagic, not_false_eq_true, if_true]
    · rw [p11_unpack_none _ hlen]

/-- Witness for C5 on an all-zero 256-byte buffer. -/
theorem C5_witness :
    Sign.sign_image hash32 signConst (List.replicate 256 0) testKey =
      (.formatError, List.replicate 256 0) ∧
    Pkcs11.pkcs11_sign_image hash32 testKey signP64 (List.replicate 256 0) =
      (.formatError, List.replicate 256 0) :=
  C5_bad_magic hash32 signConst signP64 (List.replicate 256 0) testKey testKey
    (by decide)

/-- C6: signing an STM2 image with a key on any curve other than the supported
P-256 names fails with the unsupported-curve error and returns the buffer
byte-for-byte unchanged (the failure happens before any mutation). -/
theorem C6_unsupported_curve (hash : List Nat → List Nat)
    (signFn : ECCKey → List Nat → List Nat) (image : List Nat) (key : ECCKey)
    (hlen : 256 ≤ image.length) (hmagic : sliceB image 0 4 = STM2)
    (hcurve : p256_names.contains key.curve = false) :
    Sign.sign_image hash signFn image key = (.unsupportedCurve, image) := by
  have halg : Sign.key_algorithm key = none := by
    simp only [Sign.key_algorithm]
    rw [if_neg (by rw [hcurve]; exact Bool.false_ne_true),
      if_neg (by simp [brainpool_names])]
  unfold Sign.sign_image
  rw [sign_unpack_eq _ hlen, halg]
  simp only [hmagic, ne_eq, not_true_eq_false, if_false]

/-- Witness for C6 with a secp384r1 key fixture. -/
theorem C6_witness :
    Sign.sign_image hash32 signConst img256 badCurveKey =
      (.unsupportedCurve, img256) :=
  C6_unsupported_curve hash32 signConst img256 badCurveKey
    (by decide) (by decide) (by decide)

/-- C8: the pkcs11 verify path checks the signature only against the key
fetched from the token: it can never return the key-mismatch verdict, and it
returns Valid exactly when the cryptographic check against the token key
passes — with no hypothesis at all relating the token key to the ecdsa_pubkey
bytes embedded in the header. -/
theorem C8_pkcs11_verify_ignores_embedded_key (hash : List Nat → List Nat)
    (verifyFn : ECCKey → List Nat → List Nat → Bool)
    (pub : ECCKey) (image : List Nat) (hlen : 256 ≤ image.length) :
    Pkcs11.pkcs11_verify_signature hash verifyFn pub image ≠ .keyMismatch ∧
    (Pkcs11.pkcs11_verify_signature hash verifyFn pub image = .valid ↔
      verifyFn pub (hash (image.drop 72)) (sliceB image 4 64) = true) := by
  rw [p11_verify_char hash verifyFn pub image hlen]
  by_cases hv : verifyFn pub (hash (image.drop 72)) (sliceB image 4 64) = true
  · simp [hv]
  · simp [hv]

/-- Witness for C8: the token key differs from the embedded pubkey bytes of
the all-zero-body image, yet verification still reports Valid when the
cryptographic check passes and never reports a key mismatch. -/
theorem C8_witness :
    Pkcs11.get_raw_pubkey testKey ≠ sliceB img256 108 64 ∧
    Pkcs11.pkcs11_verify_signature hash32 verifyTrue testKey img256 ≠
      .keyMismatch ∧
    (Pkcs11.pkcs11_verify_signature hash32 verifyTrue testKey img256 = .valid ↔
      verifyTrue testKey (hash32 (img256.drop 72)) (sliceB img256 4 64) = true) :=
  ⟨by decide,
    C8_pkcs11_verify_ignores_embedded_key hash32 verifyTrue testKey img256
      (by decide)⟩

/-- C9: re-encoding a header never changes the buffer length, touches only the
first 256 bytes, and forces reserved1 (0x54), reserved2 (0x5C), the 83 pad
bytes (0xAC) and the final binding byte (0xFF) to zero, whatever the record
holds — in both codecs. -/
theorem C9_encode_frame (imageL imageP : List Nat)
    (s : Sign.Stm32Header) (t : Pkcs11.Stm32Header)
    (hL : 256 ≤ imageL.length) (hP : 256 ≤ imageP.length) :
    ((Sign.repack_header imageL s).length = imageL.length ∧
      (Sign.repack_header imageL s).drop 256 = imageL.drop 256 ∧
      sliceB (Sign.repack_header imageL s) 84 4 = le32enc 0 ∧
      sliceB (Sign.repack_header imageL s) 92 4 = le32enc 0 ∧
      sliceB (Sign.repack_header imageL s) 172 83 = List.replicate 83 0 ∧
      sliceB (Sign.repack_header imageL s) 255 1 = [0]) ∧
    ((Pkcs11.repack_header imageP t).length = imageP.length ∧
      (Pkcs11.repack_header imageP t).drop 256 = imageP.drop 256 ∧
      sliceB (Pkcs11.repack_header imageP t) 84 4 = le32enc 0 ∧
      sliceB (Pkcs11.repack_header imageP t) 92 4 = le32enc 0 ∧
      sliceB (Pkcs11.repack_header imageP t) 172 83 = List.replicate 83 0 ∧
      sliceB (Pkcs11.repack_header imageP t) 255 1 = [0]) := by
  refine ⟨⟨sign_repack_length imageL s hL, ?_, ?_, ?_, ?_, ?_⟩,
    p11_repack_length imageP t hP, ?_, ?_, ?_, ?_, ?_⟩
  · simp only [Sign.repack_header]
    rw [pf_tail]
  · simp only [Sign.repack_header]
    rw [pf_i4]
  · simp only [Sign.repack_header]
    rw [pf_i6]
  · simp only [Sign.repack_header]
    rw [pf_pad]
  · simp only [Sign.repack_header]
    rw [pf_b]
  · simp only [Pkcs11.repack_header]
    rw [pf_tail]
  · simp only [Pkcs11.repack_header]
    rw [pf_i4]
  · simp only [Pkcs11.repack_header]
    rw [pf_i6]
  · simp only [Pkcs11.repack_header]
    rw [pf_pad]
  · simp only [Pkcs11.repack_header]
    rw [pf_b]

/-- Witness for C9 at the concrete record fixtures on 256-byte buffers. -/
theorem C9_witness :
    ((Sign.repack_header img256 hdrL0).length = img256.length ∧
      (Sign.repack_header img256 hdrL0).drop 256 = img256.drop 256 ∧
      sliceB (Sign.repack_header img256 hdrL0) 84 4 = le32enc 0 ∧
      sliceB (Sign.repack_header img256 hdrL0) 92 4 = le32enc 0 ∧
      sliceB (Sign.repack_header img256 hdrL0) 172 83 = List.replicate 83 0 ∧
      sliceB (Sign.repack_header img256 hdrL0) 255 1 = [0]) ∧
    ((Pkcs11.repack_header img256 hdrP0).length = img256.length ∧
      (Pkcs11.repack_header img256 hdrP0).drop 256 = img256.drop 256 ∧
      sliceB (Pkcs11.repack_header img256 hdrP0) 84 4 = le32enc 0 ∧
      sliceB (Pkcs11.repack_header img256 hdrP0) 92 4 = le32enc 0 ∧
      sliceB (Pkcs11.repack_header img256 hdrP0) 172 83 = List.replicate 83 0 ∧
      sliceB (Pkcs11.repack_header img256 hdrP0) 255 1 = [0]) :=
  C9_encode_frame img256 img256 hdrL0 hdrP0 (by decide) (by decide)

/-- A four-byte list of bytes is reproduced by encode after decode. -/
theorem le32_roundtrip_list (u : List Nat) (h4 : u.length = 4)
    (hb : ∀ x ∈ u, x < 256) : le32enc (le32dec u) = u := by
  rcases u with _ | ⟨a, _ | ⟨b, _ | ⟨c, _ | ⟨d, _ | ⟨e2, u5⟩⟩⟩⟩⟩
  · simp at h4
  · simp at h4
  · simp at h4
  · simp at h4
  · exact le32enc_le32dec (hb a (by simp)) (hb b (by simp)) (hb c (by simp))
      (hb d (by simp))
  · simp [List.length_cons] at h4

/-- Decoding then re-encoding a 4-byte word slice of a byte buffer gives the
slice back. -/
theorem le32_slice_roundtrip (l : List Nat) (off : Nat) (h : off + 4 ≤ l.length)
    (hb : ∀ x ∈ l, x < 256) :
    le32enc (le32dec (sliceB l off 4)) = sliceB l off 4 := by
  refine le32_roundtrip_list _ ?_ ?_
  · simp only [sliceB, List.length_take, List.length_drop]
    omega
  · intro x hx
    exact hb x (List.drop_subset off l (List.take_subset 4 (l.drop off) hx))

/-- Bytes at or past offset 68 of a freshly signed image come from the
repacked header (local variant). -/
theorem sign_out_drop_ge (hash : List Nat → List Nat)
    (signFn : ECCKey → List Nat → List Nat) (image : List Nat) (key : ECCKey)
    (hlen : 256 ≤ image.length) (hmagic : sliceB image 0 4 = STM2)
    (hcurve : p256_names.contains key.curve = true)
    (hsig64 : ∀ d, (signFn key d).length = 64) {k : Nat} (hk : 68 ≤ k) :
    ((Sign.sign_image hash signFn image key).2).drop k =
      (Sign.repack_header image (Sign.signedHdr image key)).drop k := by
  have hRlen := sign_repack_length image (Sign.signedHdr image key) hlen
  rw [sign_image_ok hash signFn image key hlen hmagic hcurve, List.append_assoc]
  exact splice64_drop _ (by rw [List.length_take]; omega) (hsig64 _) hk

/-- Bytes at or past offset 68 of a freshly signed image come from the
repacked header (pkcs11 variant). -/
theorem p11_out_drop_ge (hash : List Nat → List Nat) (pub : ECCKey)
    (signP : List Nat → List Nat) (image : List Nat)
    (hlen : 256 ≤ image.length) (hmagic : sliceB image 0 4 = STM2)
    (hcurve : p256_names.contains pub.curve = true)
    (hsigP64 : ∀ d, (signP d).length = 64) {k : Nat} (hk : 68 ≤ k) :
    ((Pkcs11.pkcs11_sign_image hash pub signP image).2).drop k =
      (Pkcs11.repack_header image (Pkcs11.signedHdr image pub)).drop k := by
  have hQlen := p11_repack_length image (Pkcs11.signedHdr image pub) hlen
  rw [p11_sign_image_ok hash pub signP image hlen hmagic hcurve,
    List.append_assoc]
  exact splice64_drop _ (by rw [List.length_take]; omega) (hsigP64 _) hk

/-- C10 counterexample: on an STM2 image whose word at 0x48 differs from the
word at 0x60, the local sign pipeline changes the bytes at 0x48 (they are not
among the fields the claim allows to change), because repack writes
hdr_version — decoded from 0x60 — into word 3. -/
theorem C10_counterexample :
    sliceB (Sign.sign_image hash32 signConst imgTwoVersionsPay testKey).2 72 4 ≠
      sliceB imgTwoVersionsPay 72 4 := by decide

/-- C10 (amended): a successful sign leaves magic (0x00), checksum (0x44,
copied back, never recomputed), image_length (0x4C), entry_address (0x50),
load_address (0x58), the word at 0x60 and every payload byte from 256 on
identical to their pre-call values, in both variants; the pkcs11 variant also
preserves the word at 0x48, while the local variant rewrites the bytes at
0x48 with the pre-call value of the word at 0x60 — beyond that, only the
signature, option_flags, ecdsa_algo, ecdsa_pubkey fields and the
reserved-zero regions change. -/
theorem C10_sign_frame (hash : List Nat → List Nat)
    (signFn : ECCKey → List Nat → List Nat) (signP : List Nat → List Nat)
    (image : List Nat) (key pub : ECCKey)
    (hlen : 256 ≤ image.length) (hmagic : sliceB image 0 4 = STM2)
    (hcurve : p256_names.contains key.curve = true)
    (hcurveP : p256_names.contains pub.curve = true)
    (hsig64 : ∀ d, (signFn key d).length = 64)
    (hsigP64 : ∀ d, (signP d).length = 64)
    (hbytes : ∀ x ∈ image, x < 256) :
    (sliceB (Sign.sign_image hash signFn image key).2 0 4 = sliceB image 0 4 ∧
      sliceB (Sign.sign_image hash signFn image key).2 68 4 = sliceB image 68 4 ∧
      sliceB (Sign.sign_image hash signFn image key).2 76 4 = sliceB image 76 4 ∧
      sliceB (Sign.sign_image hash signFn image key).2 80 4 = sliceB image 80 4 ∧
      sliceB (Sign.sign_image hash signFn image key).2 88 4 = sliceB image 88 4 ∧
      sliceB (Sign.sign_image hash signFn image key).2 96 4 = sliceB image 96 4 ∧
      ((Sign.sign_image hash signFn image key).2).drop 256 = image.drop 256 ∧
      sliceB (Sign.sign_image hash signFn image key).2 72 4 =
        sliceB image 96 4) ∧
    (sliceB (Pkcs11.pkcs11_sign_image hash pub signP image).2 0 4 =
        sliceB image 0 4 ∧
      sliceB (Pkcs11.pkcs11_sign_image hash pub signP image).2 68 4 =
        sliceB image 68 4 ∧
      sliceB (Pkcs11.pkcs11_sign_image hash pub signP image).2 72 4 =
        sliceB image 72 4 ∧
      sliceB (Pkcs11.pkcs11_sign_image hash pub signP image).2 76 4 =
        sliceB image 76 4 ∧
      sliceB (Pkcs11.pkcs11_sign_image hash pub signP image).2 80 4 =
        sliceB image 80 4 ∧
      sliceB (Pkcs11.pkcs11_sign_image hash pub signP image).2 88 4 =
        sliceB image 88 4 ∧
      sliceB (Pkcs11.pkcs11_sign_image hash pub signP image).2 96 4 =
        sliceB image 96 4 ∧
      ((Pkcs11.pkcs11_sign_image hash pub signP image).2).drop 256 =
        image.drop 256) := by
  have hm4 : (sliceB image 0 4).length = 4 := by
    simp only [sliceB, List.length_take, List.length_drop]
    omega
  have hRlen := sign_repack_length image (Sign.signedHdr image key) hlen
  have htl : ((Sign.repack_header image (Sign.signedHdr image key)).take 4).length = 4 := by
    rw [List.length_take]
    omega
  have houtL : (Sign.sign_image hash signFn image key).2 =
      (Sign.repack_header image (Sign.signedHdr image key)).take 4 ++
        (signFn key (hash ((Sign.repack_header image (Sign.signedHdr image key)).drop 72)) ++
          (Sign.repack_header image (Sign.signedHdr image key)).drop 68) := by
    rw [sign_image_ok hash signFn image key hlen hmagic hcurve,
      List.append_assoc]
  have hQlen := p11_repack_length image (Pkcs11.signedHdr image pub) hlen
  have htlQ : ((Pkcs11.repack_header image (Pkcs11.signedHdr image pub)).take 4).length = 4 := by
    rw [List.length_take]
    omega
  have houtP : (Pkcs11.pkcs11_sign_image hash pub signP image).2 =
      (Pkcs11.repack_header image (Pkcs11.signedHdr image pub)).take 4 ++
        (signP (hash ((Pkcs11.repack_header image (Pkcs11.signedHdr image pub)).drop 72)) ++
          (Pkcs11.repack_header image (Pkcs11.signedHdr image pub)).drop 68) := by
    rw [p11_sign_image_ok hash pub signP image hlen hmagic hcurveP,
      List.append_assoc]
  refine ⟨⟨?_, ?_, ?_, ?_, ?_, ?_, ?_, ?_⟩, ?_, ?_, ?_, ?_, ?_, ?_, ?_, ?_⟩
  · rw [houtL, splice64_magic _ _ htl]
    have ht : (Sign.repack_header image (Sign.signedHdr image key)).take 4 =
        sliceB (Sign.repack_header image (Sign.signedHdr image key)) 0 4 := by
      simp [sliceB]
    rw [ht]
    simp only [Sign.repack_header]
    rw [pf_magic]
    simp only [Sign.signedHdr]
    exact packBytes_eq_self hm4
  · simp only [sliceB]
    rw [sign_out_drop_ge hash signFn image key hlen hmagic hcurve hsig64
      (by norm_num)]
    show sliceB (Sign.repack_header image (Sign.signedHdr image key)) 68 4 = _
    simp only [Sign.repack_header]
    rw [pf_i0]
    simp only [Sign.signedHdr]
    exact le32_slice_roundtrip image 68 (by omega) hbytes
  · simp only [sliceB]
    rw [sign_out_drop_ge hash signFn image key hlen hmagic hcurve hsig64
      (by norm_num)]
    show sliceB (Sign.repack_header image (Sign.signedHdr image key)) 76 4 = _
    simp only [Sign.repack_header]
    rw [pf_i2]
    simp only [Sign.signedHdr]
    exact le32_slice_roundtrip image 76 (by omega) hbytes
  · simp only [sliceB]
    rw [sign_out_drop_ge hash signFn image key hlen hmagic hcurve hsig64
      (by norm_num)]
    show sliceB (Sign.repack_header image (Sign.signedHdr image key)) 80 4 = _
    simp only [Sign.repack_header]
    rw [pf_i3]
    simp only [Sign.signedHdr]
    exact le32_slice_roundtrip image 80 (by omega) hbytes
  · simp only [sliceB]
    rw [sign_out_drop_ge hash signFn image key hlen hmagic hcurve hsig64
      (by norm_num)]
    show sliceB (Sign.repack_header image (Sign.signedHdr image key)) 88 4 = _
    simp only [Sign.repack_header]
    rw [pf_i5]
    simp only [Sign.signedHdr]
    exact le32_slice_roundtrip image 88 (by omega) hbytes
  · simp only [sliceB]
    rw [sign_out_drop_ge hash signFn image key hlen hmagic hcurve hsig64
      (by norm_num)]
    show sliceB (Sign.repack_header image (Sign.signedHdr image key)) 96 4 = _
    simp only [Sign.repack_header]
    rw [pf_i7]
    simp only [Sign.signedHdr]
    exact le32_slice_roundtrip image 96 (by omega) hbytes
  · rw [sign_out_drop_ge hash signFn image key hlen hmagic hcurve hsig64
      (by norm_num)]
    simp only [Sign.repack_header]
    rw [pf_tail]
  · simp only [sliceB]
    rw [sign_out_drop_ge hash signFn image key hlen hmagic hcurve hsig64
      (by norm_num)]
    show sliceB (Sign.repack_header image (Sign.signedHdr image key)) 72 4 = _
    simp only [Sign.repack_header]
    rw [pf_i1]
    simp only [Sign.signedHdr]
    exact le32_slice_roundtrip image 96 (by omega) hbytes
  · rw [houtP, splice64_magic _ _ htlQ]
    have ht : (Pkcs11.repack_header image (Pkcs11.signedHdr image pub)).take 4 =
        sliceB (Pkcs11.repack_header image (Pkcs11.signedHdr image pub)) 0 4 := by
      simp [sliceB]
    rw [ht]
    simp only [Pkcs11.repack_header]
    rw [pf_magic]
    simp only [Pkcs11.signedHdr]
    exact packBytes_eq_self hm4
  · simp only [sliceB]
    rw [p11_out_drop_ge hash pub signP image hlen hmagic hcurveP hsigP64
      (by norm_num)]
    show sliceB (Pkcs11.repack_header image (Pkcs11.signedHdr image pub)) 68 4 = _
    simp only [Pkcs11.repack_header]
    rw [pf_i0]
    simp only [Pkcs11.signedHdr]
    exact le32_slice_roundtrip image 68 (by omega) hbytes
  · simp only [sliceB]
    rw [p11_out_drop_ge hash pub signP image hlen hmagic hcurveP hsigP64
      (by norm_num)]
    show sliceB (Pkcs11.repack_header image (Pkcs11.signedHdr image pub)) 72 4 = _
    simp only [Pkcs11.repack_header]
    rw [pf_i1]
    simp only [Pkcs11.signedHdr]
    exact le32_slice_roundtrip image 72 (by omega) hbytes
  · simp only [sliceB]
    rw [p11_out_drop_ge hash pub signP image hlen hmagic hcurveP hsigP64
      (by norm_num)]
    show sliceB (Pkcs11.repack_header image (Pkcs11.signedHdr image pub)) 76 4 = _
    simp only [Pkcs11.repack_header]
    rw [pf_i2]
    simp only [Pkcs11.signedHdr]
    exact le32_slice_roundtrip image 76 (by omega) hbytes
  · simp only [sliceB]
    rw [p11_out_drop_ge hash pub signP image hlen hmagic hcurveP hsigP64
      (by norm_num)]
    show sliceB (Pkcs11.repack_header image (Pkcs11.signedHdr image pub)) 80 4 = _
    simp only [Pkcs11.repack_header]
    rw [pf_i3]
    simp only [Pkcs11.signedHdr]
    exact le32_slice_roundtrip image 80 (by omega) hbytes
  · simp only [sliceB]
    rw [p11_out_drop_ge hash pub signP image hlen hmagic hcurveP hsigP64
      (by norm_num)]
    show sliceB (Pkcs11.repack_header image (Pkcs11.signedHdr image pub)) 88 4 = _
    simp only [Pkcs11.repack_header]
    rw [pf_i5]
    simp only [Pkcs11.signedHdr]
    exact le32_slice_roundtrip image 88 (by omega) hbytes
  · simp only [sliceB]
    rw [p11_out_drop_ge hash pub signP image hlen hmagic hcurveP hsigP64
      (by norm_num)]
    show sliceB (Pkcs11.repack_header image (Pkcs11.signedHdr image pub)) 96 4 = _
    simp only [Pkcs11.repack_header]
    rw [pf_i7]
    simp only [Pkcs11.signedHdr]
    exact le32_slice_roundtrip image 96 (by omega) hbytes
  · rw [p11_out_drop_ge hash pub signP image hlen hmagic hcurveP hsigP64
      (by norm_num)]
    simp only [Pkcs11.repack_header]
    rw [pf_tail]

/-- Witness for the amended C10 at the concrete two-version image. -/
theorem C10_witness :
    (sliceB (Sign.sign_image hash32 signConst imgTwoVersionsPay testKey).2 0 4 =
        sliceB imgTwoVersionsPay 0 4 ∧
      sliceB (Sign.sign_image hash32 signConst imgTwoVersionsPay testKey).2 68 4 =
        sliceB imgTwoVersionsPay 68 4 ∧
      sliceB (Sign.sign_image hash32 signConst imgTwoVersionsPay testKey).2 76 4 =
        sliceB imgTwoVersionsPay 76 4 ∧
      sliceB (Sign.sign_image hash32 signConst imgTwoVersionsPay testKey).2 80 4 =
        sliceB imgTwoVersionsPay 80 4 ∧
      sliceB (Sign.sign_image hash32 signConst imgTwoVersionsPay testKey).2 88 4 =
        sliceB imgTwoVersionsPay 88 4 ∧
      sliceB (Sign.sign_image hash32 signConst imgTwoVersionsPay testKey).2 96 4 =
        sliceB imgTwoVersionsPay 96 4 ∧
      ((Sign.sign_image hash32 signConst imgTwoVersionsPay testKey).2).drop 256 =
        imgTwoVersionsPay.drop 256 ∧
      sliceB (Sign.sign_image hash32 signConst imgTwoVersionsPay testKey).2 72 4 =
        sliceB imgTwoVersionsPay 96 4) ∧
    (sliceB (Pkcs11.pkcs11_sign_image hash32 testKey signP64 imgTwoVersionsPay).2 0 4 =
        sliceB imgTwoVersionsPay 0 4 ∧
      sliceB (Pkcs11.pkcs11_sign_image hash32 testKey signP64 imgTwoVersionsPay).2 68 4 =
        sliceB imgTwoVersionsPay 68 4 ∧
      sliceB (Pkcs11.pkcs11_sign_image hash32 testKey signP64 imgTwoVersionsPay).2 72 4 =
        sliceB imgTwoVersionsPay 72 4 ∧
      sliceB (Pkcs11.pkcs11_sign_image hash32 testKey signP64 imgTwoVersionsPay).2 76 4 =
        sliceB imgTwoVersionsPay 76 4 ∧
      sliceB (Pkcs11.pkcs11_sign_image hash32 testKey signP64 imgTwoVersionsPay).2 80 4 =
        sliceB imgTwoVersionsPay 80 4 ∧
      sliceB (Pkcs11.pkcs11_sign_image hash32 testKey signP64 imgTwoVersionsPay).2 88 4 =
        sliceB imgTwoVersionsPay 88 4 ∧
      sliceB (Pkcs11.pkcs11_sign_image hash32 testKey signP64 imgTwoVersionsPay).2 96 4 =
        sliceB imgTwoVersionsPay 96 4 ∧
      ((Pkcs11.pkcs11_sign_image hash32 testKey signP64 imgTwoVersionsPay).2).drop 256 =
        imgTwoVersionsPay.drop 256) :=
  C10_sign_frame hash32 signConst signP64 imgTwoVersionsPay testKey testKey
    (by decide) (by decide) (by decide) (by decide) (fun _ => rfl) (fun _ => rfl)
    (by decide)
